import Mathlib

/-!
Verification of the mruby/c bytecode loader (`src/load.c`).

The loader is embedded shallowly:

* the input blob is a total byte stream `Mem := Nat → Nat` (the C code
  performs no bounds check, so every read is defined on the stream);
* the allocation primitive (`mrbc_irep_alloc` / `mrbc_alloc`) is an oracle
  `Cfg.alloc : Nat → Bool` giving the outcome of the n-th allocation, and an
  allocation counter is threaded through the decoder;
* the `mrbc_raise` macro prints the source file and line, so each raise site
  is modelled as an observable event `RSite` appended to a log;
* the recursion of `load_irep_0` is modelled with explicit fuel
  (the C recursion is genuinely unbounded), consumed on every step so that
  all definitions are structurally recursive and computable.
-/

namespace MrbcLoad

/-- The input blob, as a total byte stream (the C code never bounds-checks). -/
abbrev Mem := Nat → Nat

/-- Observable raise sites: the `mrbc_raise` dummy macro in `load.c` prints
`__FILE__:__LINE__`, so each call site is a distinct observable diagnostic.
The constructor names follow the call sites in `load.c`. -/
inductive RSite where
  | hdrMagic          -- line 65: magic/version mismatch in `load_header`
  | hdrMatz           -- line 74: originator tag mismatch in `load_header`
  | hdrVer            -- line 78: originator-version mismatch in `load_header`
  | irepAllocFail     -- line 124: `mrbc_irep_alloc` returned NULL
  | repsAllocFail     -- line 139: child-pointer array allocation failed
  | poolsAllocFail    -- line 154: pool array allocation failed
  | objAllocFail      -- line 164: pool object allocation failed
  | int64Unsupported  -- line 204: IREP_TT_INT64 without MRBC_INT64
  | irepBadRevision   -- line 271: rite version mismatch in `load_irep`
deriving DecidableEq

/-- Build configuration and environment:
`int64` is whether `MRBC_INT64` is defined; `alloc` is the allocation oracle.

Modelled from the spec: the allocation primitive (`mrbc_alloc` /
`mrbc_irep_alloc`, whose source is outside `src/`) is specified in §6 as
`allocate(size) -> memory or failure-signal`; it is modelled as an oracle
giving the success of the n-th allocation. `MRBC_USE_STRING` and
`MRBC_USE_FLOAT` are taken as enabled, matching the five-variant closed set
of §3. -/
structure Cfg where
  int64 : Bool
  alloc : Nat → Bool

/-- One allocation attempt: result of the oracle, and the bumped counter. -/
def tryAlloc (cfg : Cfg) (a : Nat) : Bool × Nat := (cfg.alloc a, a + 1)

/-- Modelled from the spec: `bin_to_uint16` (its source is outside `src/`),
the fixed-width big-endian 16-bit reader of §4.1. -/
def bin_to_uint16 (m : Mem) (p : Nat) : Nat := 256 * m p + m (p + 1)

/-- Modelled from the spec: `bin_to_uint32` (its source is outside `src/`),
the fixed-width big-endian 32-bit reader of §4.1. -/
def bin_to_uint32 (m : Mem) (p : Nat) : Nat :=
  16777216 * m p + 65536 * m (p + 1) + 256 * m (p + 2) + m (p + 3)

/-- `memcmp(p, s, s.length) == 0`, on the byte stream. -/
def memEq (m : Mem) : Nat → List Nat → Bool
  | _, [] => true
  | p, b :: t => (m p == b) && memEq m (p + 1) t

/-- The bytes of `"RITE02"`. -/
def RITE02 : List Nat := [82, 73, 84, 69, 48, 50]

/-- The bytes of `"MATZ"`. -/
def MATZ : List Nat := [77, 65, 84, 90]

/-- The bytes of `"0000"`. -/
def ZERO4 : List Nat := [48, 48, 48, 48]

/-- The bytes of `"IREP"`. -/
def IREPTAG : List Nat := [73, 82, 69, 80]

/-- The bytes of `"LVAR"`. -/
def LVARTAG : List Nat := [76, 86, 65, 82]

/-- The bytes of the end marker (`"END"` plus a NUL byte). -/
def ENDTAG : List Nat := [69, 78, 68, 0]

/-- The bytes of the rite version `"0300"`. -/
def REV0300 : List Nat := [48, 51, 48, 48]

/-- A decoded constant-pool object (`mrbc_object` as filled by
`load_irep_1`).  `uninit` is an object that was allocated but whose fields
were never assigned by any switch case (the `default:` path and the
`IREP_TT_INT64` path without `MRBC_INT64`). -/
inductive PoolObj where
  | str (off : Nat)            -- MRBC_TT_STRING: obj->str points into the blob
  | fixnum (i : Nat)           -- MRBC_TT_FIXNUM
  | floatRaw (bytes : List Nat) -- MRBC_TT_FLOAT: the 8 raw bytes memcpy'd
  | uninit
deriving DecidableEq

mutual
/-- A decoded `mrbc_irep` record. -/
inductive Irep where
  | mk (nlocals nregs rlen clen ilen codeOff plen : Nat)
       (pools : List PoolObj) (symOff : Nat) (reps : RepList)

/-- The `irep->reps` child-pointer array, in input order. -/
inductive RepList where
  | nil
  | cons (hd : RepEntry) (tl : RepList)

/-- One slot of `irep->reps`: either a decoded child or a NULL pointer
(stored when a child's `load_irep_0` returned NULL). -/
inductive RepEntry where
  | fail
  | ok (ir : Irep)
end

/-- The `rlen` field (declared child count) of a record. -/
def Irep.rlen : Irep → Nat
  | .mk _ _ r _ _ _ _ _ _ _ => r

/-- Replace the child array of a record (filling `irep->reps`). -/
def Irep.setReps : Irep → RepList → Irep
  | .mk a b c d e f g h i _, rs => .mk a b c d e f g h i rs

/-- Number of slots in a child array. -/
def RepList.length : RepList → Nat
  | .nil => 0
  | .cons _ t => RepList.length t + 1

/-- Decode one constant-pool entry after its type-tag byte: the body of the
`switch (tt)` in `load_irep_1`.  Returns the object, the advanced cursor,
and the raised diagnostics. -/
def decodePoolEntry (cfg : Cfg) (m : Mem) (tt p : Nat) : PoolObj × Nat × List RSite :=
  if tt = 0 ∨ tt = 2 then
    -- IREP_TT_STR / IREP_TT_SSTR: 16-bit length, data, terminator byte
    (PoolObj.str (p + 2), p + 2 + bin_to_uint16 m p + 1, [])
  else if tt = 1 then
    -- IREP_TT_INT32
    (PoolObj.fixnum (bin_to_uint32 m p), p + 4, [])
  else if tt = 5 then
    -- IREP_TT_FLOAT: memcpy of 8 bytes
    (PoolObj.floatRaw [m p, m (p + 1), m (p + 2), m (p + 3),
                       m (p + 4), m (p + 5), m (p + 6), m (p + 7)], p + 8, [])
  else if tt = 3 then
    -- IREP_TT_INT64
    if cfg.int64 then
      (PoolObj.fixnum (bin_to_uint32 m p * 4294967296 + bin_to_uint32 m (p + 4)),
       p + 8, [])
    else
      (PoolObj.uninit, p + 8, [RSite.int64Unsupported])
  else
    -- default: assert(!"Unknown tt") — a no-op in release builds; the
    -- object stays uninitialized and the cursor is not advanced.
    (PoolObj.uninit, p, [])

/-- The pool-decoding loop of `load_irep_1`: `n` remaining entries, cursor
`p`, allocation counter `a`.  `none` in the first component is the NULL
return (object allocation failure). -/
def poolLoop (cfg : Cfg) (m : Mem) : Nat → Nat → Nat →
    Option (List PoolObj × Nat) × Nat × List RSite
  | 0, p, a => (some ([], p), a, [])
  | n + 1, p, a =>
    let tt := m p
    let r := tryAlloc cfg a
    if r.1 then
      let d := decodePoolEntry cfg m tt (p + 1)
      match poolLoop cfg m n d.2.1 r.2 with
      | (some (objs, p2), a2, lg2) => (some (d.1 :: objs, p2), a2, d.2.2 ++ lg2)
      | (none, a2, lg2) => (none, a2, d.2.2 ++ lg2)
    else
      (none, r.2, [RSite.objAllocFail])

/-- The symbol-table skipping loop of `load_irep_1`: for each of `n`
entries, read a 16-bit length `s` and advance past `2 + s + 1` bytes. -/
def symsSkipLoop (m : Mem) : Nat → Nat → Nat
  | 0, p => p
  | n + 1, p => symsSkipLoop m n (p + 2 + bin_to_uint16 m p + 1)

/-- `load_irep_1`: decode one record's own data (header fields, ISEQ span,
constant pool, symbol region).  Returns `(some (irep, advanced pos) | none,
allocation counter, raises)`; on `none` the caller's cursor is unchanged
(the C function returns before `*pos = p`). -/
def loadIrep1 (cfg : Cfg) (m : Mem) (pos a0 : Nat) :
    Option (Irep × Nat) × Nat × List RSite :=
  let r0 := tryAlloc cfg a0
  if r0.1 = false then (none, r0.2, [RSite.irepAllocFail])
  else
    let q := pos + 4                    -- skip the 4-byte record size
    let nlocals := bin_to_uint16 m q
    let nregs := bin_to_uint16 m (q + 2)
    let rlen := bin_to_uint16 m (q + 4)
    let clen := bin_to_uint16 m (q + 6)
    let ilen := bin_to_uint16 m (q + 8)
    let r1 := if rlen = 0 then (true, r0.2) else tryAlloc cfg r0.2
    if r1.1 = false then (none, r1.2, [RSite.repsAllocFail])
    else
      let codeOff := q + 10             -- irep->code
      let p1 := codeOff + ilen + 13 * clen  -- sizeof(mrbc_irep_catch_handler) == 13
      let plen := bin_to_uint16 m p1
      let r2 := if plen = 0 then (true, r1.2) else tryAlloc cfg r1.2
      if r2.1 = false then (none, r2.2, [RSite.poolsAllocFail])
      else
        match poolLoop cfg m plen (p1 + 2) r2.2 with
        | (none, a3, lg) => (none, a3, lg)
        | (some (pools, p2), a3, lg) =>
          let slen := bin_to_uint16 m p2
          (some (Irep.mk nlocals nregs rlen clen ilen codeOff plen pools p2 RepList.nil,
                 symsSkipLoop m slen (p2 + 2)), a3, lg)

/-- The recursive tree loader (`load_irep_0` and its child loop), decoding
`n` consecutive complete records (each with its whole subtree).  Fuel is
consumed on every step; `none` is fuel exhaustion.  A record whose
`load_irep_1` fails is stored as a NULL slot (`RepEntry.fail`) and decoding
continues with the cursor unchanged, exactly as in the C child loop. -/
def loadSeq (cfg : Cfg) (m : Mem) : Nat → Nat → Nat → Nat →
    Option (RepList × Nat × Nat × List RSite)
  | _, 0, pos, a => some (RepList.nil, pos, a, [])
  | 0, _ + 1, _, _ => none
  | fuel + 1, n + 1, pos, a =>
    match loadIrep1 cfg m pos a with
    | (none, a1, lg1) =>
      match loadSeq cfg m fuel n pos a1 with
      | none => none
      | some (cs, pos2, a2, lg2) =>
        some (RepList.cons RepEntry.fail cs, pos2, a2, lg1 ++ lg2)
    | (some (ir, pos1), a1, lg1) =>
      match loadSeq cfg m fuel (Irep.rlen ir) pos1 a1 with
      | none => none
      | some (kids, pos2, a2, lg2) =>
        match loadSeq cfg m fuel n pos2 a2 with
        | none => none
        | some (sibs, pos3, a3, lg3) =>
          some (RepList.cons (RepEntry.ok (Irep.setReps ir kids)) sibs,
                pos3, a3, lg1 ++ lg2 ++ lg3)

/-- `load_header`: validate the fixed 20-byte header.  Returns the advanced
position on success, `none` on mismatch (the C function returns -1 without
advancing `*pos`). -/
def loadHeader (m : Mem) (pos : Nat) : Option Nat × List RSite :=
  if memEq m pos RITE02 = false then (none, [RSite.hdrMagic])
  else if memEq m (pos + 12) MATZ = false then (none, [RSite.hdrMatz])
  else if memEq m (pos + 16) ZERO4 = false then (none, [RSite.hdrVer])
  else (some (pos + 20), [])

/-- `load_irep`: the IREP section parser.  Checks the rite version, runs the
tree loader, stores the result in `vm->irep` (even a NULL result), and on
success advances the section cursor by the section's self-declared size.
Result: `((return value, new cursor, vm->irep), allocation counter, raises)`;
`none` is fuel exhaustion of the tree loader. -/
def loadIrepSec (cfg : Cfg) (m : Mem) (jf pos a : Nat) (vi : Option Irep) :
    Option ((Int × Nat × Option Irep) × Nat × List RSite) :=
  if memEq m (pos + 8) REV0300 = false then
    some (((-1 : Int), pos, vi), a, [RSite.irepBadRevision])
  else
    match loadSeq cfg m jf 1 (pos + 12) a with
    | none => none
    | some (cs, _, a1, lg) =>
      match cs with
      | RepList.cons (RepEntry.ok ir) _ =>
        some (((0 : Int), pos + bin_to_uint32 m (pos + 4), some ir), a1, lg)
      | _ => some (((-1 : Int), pos, none), a1, lg)

/-- `load_lvar`: skip the LVAR section by its self-declared size. -/
def loadLvar (m : Mem) (pos : Nat) : Nat := pos + bin_to_uint32 m (pos + 4)

/-- The section-dispatch loop of `mrbc_load_mrb` (`while (ret == 0)`),
with fuel for the loop iterations; `none` is fuel exhaustion (the C loop
not having terminated within `fuel` iterations). -/
def loadLoop (cfg : Cfg) (m : Mem) (jf : Nat) : Nat → Nat → Option Irep → Nat →
    Option ((Int × Nat × Option Irep) × Nat × List RSite)
  | 0, _, _, _ => none
  | fuel + 1, ptr, vi, a =>
    if memEq m ptr IREPTAG then
      match loadIrepSec cfg m jf ptr a vi with
      | none => none
      | some ((ret, ptr1, vi1), a1, lg) =>
        if ret = 0 then
          match loadLoop cfg m jf fuel ptr1 vi1 a1 with
          | none => none
          | some (r, a2, lg2) => some (r, a2, lg ++ lg2)
        else some ((ret, ptr1, vi1), a1, lg)
    else if memEq m ptr LVARTAG then
      loadLoop cfg m jf fuel (loadLvar m ptr) vi a
    else if memEq m ptr ENDTAG then
      some (((0 : Int), ptr, vi), a, [])
    else
      loadLoop cfg m jf fuel ptr vi a

/-- `mrbc_load_mrb`: header validation followed by the section loop.
The blob starts at stream position 0. -/
def mrbcLoadMrb (cfg : Cfg) (m : Mem) (lf jf : Nat) (vi : Option Irep) (a : Nat) :
    Option ((Int × Nat × Option Irep) × Nat × List RSite) :=
  match loadHeader m 0 with
  | (none, lg) => some (((-1 : Int), 0, vi), a, lg)
  | (some ptr, lg) =>
    match loadLoop cfg m jf lf ptr vi a with
    | none => none
    | some (r, a1, lg2) => some (r, a1, lg ++ lg2)


/-- A build with `MRBC_INT64` defined and an always-succeeding allocator. -/
def cfg0 : Cfg := { int64 := true, alloc := fun _ => true }

/-- A build without `MRBC_INT64` (narrow integer representation),
always-succeeding allocator. -/
def cfgN : Cfg := { int64 := false, alloc := fun _ => true }

/-- An environment whose third allocation (index 2) fails: with input `mC2`
this is the `mrbc_irep_alloc` of the root's single child. -/
def cfgC2 : Cfg := { int64 := true, alloc := fun n => n != 2 }

/-- A container with a valid header, an IREP section (revision `"0300"`,
declared size 31) holding one record with `nlocals=1`, `nregs=2`, `rlen=0`,
`clen=0`, `ilen=0`, `plen=1`, whose single pool entry has the unknown type
tag `0x7F`, an empty symbol table, then `"END\0"`. -/
def mC1L : List Nat :=
  [82, 73, 84, 69, 48, 50, 0, 0, 0, 0, 0, 0, 77, 65, 84, 90, 48, 48, 48, 48,
   73, 82, 69, 80, 0, 0, 0, 31, 48, 51, 48, 48,
   0, 0, 0, 0, 0, 1, 0, 2, 0, 0, 0, 0, 0, 0, 0, 1, 127, 0, 0,
   69, 78, 68, 0]

/-- The byte stream of `mC1L` (zero past the end). -/
def mC1 : Mem := fun i => mC1L.getD i 0

/-- The record tree that `mrbc_load_mrb` builds from `mC1`: the pool slot
holds an allocated but never-initialized object. -/
def irepC1 : Irep :=
  Irep.mk 1 2 0 0 0 46 1 [PoolObj.uninit] 49 RepList.nil

/-- A container with a valid header and an IREP section (declared size 30)
whose root record declares `rlen=1`; the child record would start at the
`"END\0"` marker, and with `cfgC2` the child's `mrbc_irep_alloc` fails. -/
def mC2L : List Nat :=
  [82, 73, 84, 69, 48, 50, 0, 0, 0, 0, 0, 0, 77, 65, 84, 90, 48, 48, 48, 48,
   73, 82, 69, 80, 0, 0, 0, 30, 48, 51, 48, 48,
   0, 0, 0, 0, 0, 0, 0, 0, 0, 1, 0, 0, 0, 0, 0, 0, 0, 0,
   69, 78, 68, 0]

/-- The byte stream of `mC2L`. -/
def mC2 : Mem := fun i => mC2L.getD i 0

/-- The tree `mrbc_load_mrb` hands back for `mC2` under `cfgC2`: the root
declares one child but its only child slot is a NULL pointer. -/
def irepC2 : Irep :=
  Irep.mk 0 0 1 0 0 46 0 [] 48 (RepList.cons RepEntry.fail RepList.nil)

/-- A container with a valid header and an IREP section (declared size 39)
holding one record with `plen=1` whose pool entry has tag 3
(`IREP_TT_INT64`) and payload bytes `00 00 00 01 00 00 00 02`. -/
def mC7L : List Nat :=
  [82, 73, 84, 69, 48, 50, 0, 0, 0, 0, 0, 0, 77, 65, 84, 90, 48, 48, 48, 48,
   73, 82, 69, 80, 0, 0, 0, 39, 48, 51, 48, 48,
   0, 0, 0, 0, 0, 0, 0, 0, 0, 0, 0, 0, 0, 0, 0, 1,
   3, 0, 0, 0, 1, 0, 0, 0, 2, 0, 0,
   69, 78, 68, 0]

/-- The byte stream of `mC7L`. -/
def mC7 : Mem := fun i => mC7L.getD i 0

/-- The tree built from `mC7` on a build without `MRBC_INT64`: the pool
object was allocated but never initialized. -/
def irepC7 : Irep :=
  Irep.mk 0 0 0 0 0 46 1 [PoolObj.uninit] 57 RepList.nil

/-- Claim C1: for a constant-pool entry whose 1-byte type tag is outside the
closed set of known tags, the load is claimed to fail with a fatal
MalformedConstant decode failure and return no partially built tree.  The
code instead hits `assert(!"Unknown tt")` — a no-op when `NDEBUG` is set —
stores the allocated, never-initialized object in the pool, continues, and
`mrbc_load_mrb` returns 0 (success) with a full tree: on `mC1`, whose only
pool entry has tag `0x7F`, the load succeeds with an `uninit` pool slot and
an empty diagnostic log. -/
theorem c1_unknown_tag_load_succeeds :
    mrbcLoadMrb cfg0 mC1 2 1 none 0 =
      some (((0 : Int), 51, some irepC1), 3, []) := rfl

/-- Claim C2: every failure is claimed to abort the entire decode and reach
the caller as a failure, a record with `rlen` children never reaching its
parent with fewer than `rlen` fully-decoded children.  On `mC2` under
`cfgC2` the child's `mrbc_irep_alloc` fails (an `irepAllocFail` diagnostic
is raised), yet `load_irep_0` stores the NULL child and returns the root,
and `mrbc_load_mrb` returns 0 (success) with a root that declares one child
but holds a NULL child slot. -/
theorem c2_child_failure_swallowed :
    mrbcLoadMrb cfgC2 mC2 2 2 none 0 =
      some (((0 : Int), 50, some irepC2), 3, [RSite.irepAllocFail]) := rfl

/-- Claim C7: on a build whose integer representation cannot hold a 64-bit
constant, the decoder advances the cursor by exactly the entry's 8 encoded
bytes (first conjunct: from tag offset 48, payload at 49, cursor lands at
57), and on a wide build the value is the two big-endian 4-byte halves
combined high-then-low (second conjunct).  But the narrow build does not
fail the decode as claimed: the third conjunct shows the whole load on
`mC7` returning 0 (success) with an uninitialized pool object, the raise at
line 204 being only a diagnostic. -/
theorem c7_int64_narrow_no_failure :
    decodePoolEntry cfgN mC7 3 49 = (PoolObj.uninit, 57, [RSite.int64Unsupported])
    ∧ decodePoolEntry cfg0 mC7 3 49 = (PoolObj.fixnum 4294967298, 57, [])
    ∧ mrbcLoadMrb cfgN mC7 2 1 none 0 =
        some (((0 : Int), 59, some irepC7), 3, [RSite.int64Unsupported]) :=
  ⟨rfl, rfl, rfl⟩

/-- A container whose header is valid, whose first section tag is `"IREP"`,
and whose rite-version field is `"9999"` instead of `"0300"`. -/
def mC5L : List Nat :=
  [82, 73, 84, 69, 48, 50, 0, 0, 0, 0, 0, 0, 77, 65, 84, 90, 48, 48, 48, 48,
   73, 82, 69, 80, 0, 0, 0, 0, 57, 57, 57, 57]

/-- The byte stream of `mC5L`. -/
def mC5 : Mem := fun i => mC5L.getD i 0

/-- A container whose header is valid and whose first section tag `"XXXX"`
is none of `"IREP"`, `"LVAR"`, `"END\0"`. -/
def mC10L : List Nat :=
  [82, 73, 84, 69, 48, 50, 0, 0, 0, 0, 0, 0, 77, 65, 84, 90, 48, 48, 48, 48,
   88, 88, 88, 88]

/-- The byte stream of `mC10L`. -/
def mC10 : Mem := fun i => mC10L.getD i 0

/-- The all-zero byte stream (its first six bytes are not `"RITE02"`). -/
def mZero : Mem := fun _ => 0

/-- Claim C4: the header check of `load_header`.  If the first 6 bytes are
not `"RITE02"`, or the originator tag at offset 12 is not `"MATZ"`, or the
originator version at offset 16 is not `"0000"`, the header parse fails at
the corresponding raise site; on success the cursor advances by exactly 20
bytes.  The last conjunct shows `mrbc_load_mrb` on a bad magic: the section
loop is never entered, `vm->irep` is untouched, no allocation happens, and
the result is the bare failure `-1`. -/
theorem c4_header_validation (cfg : Cfg) (m : Mem) (pos lf jf : Nat)
    (vi : Option Irep) (a : Nat) :
    (memEq m pos RITE02 = false → loadHeader m pos = (none, [RSite.hdrMagic]))
    ∧ (memEq m pos RITE02 = true → memEq m (pos + 12) MATZ = false →
        loadHeader m pos = (none, [RSite.hdrMatz]))
    ∧ (memEq m pos RITE02 = true → memEq m (pos + 12) MATZ = true →
        memEq m (pos + 16) ZERO4 = false → loadHeader m pos = (none, [RSite.hdrVer]))
    ∧ (∀ r lg, loadHeader m pos = (some r, lg) → r = pos + 20 ∧ lg = [])
    ∧ (memEq m 0 RITE02 = false →
        mrbcLoadMrb cfg m lf jf vi a = some (((-1 : Int), 0, vi), a, [RSite.hdrMagic])) := by
  refine ⟨?_, ?_, ?_, ?_, ?_⟩
  · intro h; simp [loadHeader, h]
  · intro h1 h2; simp [loadHeader, h1, h2]
  · intro h1 h2 h3; simp [loadHeader, h1, h2, h3]
  · intro r lg h
    unfold loadHeader at h
    split at h
    · exact absurd h (by simp)
    · split at h
      · exact absurd h (by simp)
      · split at h
        · exact absurd h (by simp)
        · simp only [Prod.mk.injEq, Option.some.injEq] at h
          exact ⟨h.1.symm, h.2.symm⟩
  · intro h; simp [mrbcLoadMrb, loadHeader, h]

/-- Claim C4 witness: on the all-zero blob the magic check fails, the
header parse reports the magic raise site, and the whole load returns `-1`
having consumed nothing. -/
theorem c4_header_validation_witness :
    loadHeader mZero 0 = (none, [RSite.hdrMagic])
    ∧ mrbcLoadMrb cfg0 mZero 1 1 none 0 = some (((-1 : Int), 0, none), 0, [RSite.hdrMagic]) :=
  ⟨(c4_header_validation cfg0 mZero 0 1 1 none 0).1 (by decide),
   (c4_header_validation cfg0 mZero 0 1 1 none 0).2.2.2.2 (by decide)⟩

/-- Claim C5: with a valid header and an `"IREP"` section whose rite-version
tag is not `"0300"`, `mrbc_load_mrb` returns `-1` with `vm->irep` still
unset (no record of the section decoded), no allocation performed, and the
single diagnostic raised at the `load_irep` revision check — a raise site
distinct from all three header raise sites. -/
theorem c5_bad_revision (cfg : Cfg) (m : Mem) (lf jf a : Nat)
    (h1 : memEq m 0 RITE02 = true) (h2 : memEq m 12 MATZ = true)
    (h3 : memEq m 16 ZERO4 = true) (h4 : memEq m 20 IREPTAG = true)
    (h5 : memEq m 28 REV0300 = false) :
    mrbcLoadMrb cfg m (lf + 1) jf none a =
      some (((-1 : Int), 20, none), a, [RSite.irepBadRevision])
    ∧ RSite.irepBadRevision ≠ RSite.hdrMagic
    ∧ RSite.irepBadRevision ≠ RSite.hdrMatz
    ∧ RSite.irepBadRevision ≠ RSite.hdrVer := by
  refine ⟨?_, by decide, by decide, by decide⟩
  have h2' : memEq m (0 + 12) MATZ = true := by simpa using h2
  have h3' : memEq m (0 + 16) ZERO4 = true := by simpa using h3
  have h5' : memEq m (20 + 8) REV0300 = false := by simpa using h5
  simp [mrbcLoadMrb, loadHeader, loadLoop, loadIrepSec, h1, h2', h3', h4, h5']

/-- Claim C5 witness: on `mC5` (valid header, `"IREP"` tag, revision
`"9999"`) the load fails exactly as `c5_bad_revision` states. -/
theorem c5_bad_revision_witness :
    mrbcLoadMrb cfg0 mC5 1 1 none 0 =
      some (((-1 : Int), 20, none), 0, [RSite.irepBadRevision])
    ∧ RSite.irepBadRevision ≠ RSite.hdrMagic
    ∧ RSite.irepBadRevision ≠ RSite.hdrMatz
    ∧ RSite.irepBadRevision ≠ RSite.hdrVer :=
  c5_bad_revision cfg0 mC5 0 1 0 (by decide) (by decide) (by decide) (by decide) (by decide)

/-- Claim C6: top-level section framing.  First conjunct: whenever
`load_irep` returns success, the top-level cursor has advanced by exactly
the section's self-declared 32-bit size field at offset `pos + 4` —
whatever the tree decode consumed.  Second conjunct: `load_lvar` advances
by exactly the LVAR section's self-declared size.  Third conjunct: the LVAR
skip depends on nothing but the four size bytes — its contents are never
interpreted. -/
theorem c6_section_advance (cfg : Cfg) (m : Mem) (jf pos a : Nat) (vi : Option Irep) :
    (∀ r pr vi' a' lg, loadIrepSec cfg m jf pos a vi = some ((r, pr, vi'), a', lg) →
        r = 0 → pr = pos + bin_to_uint32 m (pos + 4))
    ∧ loadLvar m pos = pos + bin_to_uint32 m (pos + 4)
    ∧ (∀ m' : Mem, m' (pos + 4) = m (pos + 4) → m' (pos + 5) = m (pos + 5) →
        m' (pos + 6) = m (pos + 6) → m' (pos + 7) = m (pos + 7) →
        loadLvar m' pos = loadLvar m pos) := by
  refine ⟨?_, rfl, ?_⟩
  · intro r pr vi' a' lg h hr
    subst hr
    unfold loadIrepSec at h
    split at h
    · exact absurd h (by simp)
    · split at h
      · exact absurd h (by simp)
      · split at h
        · simp only [Prod.mk.injEq, Option.some.injEq] at h
          exact h.1.2.1.symm
        · exact absurd h (by simp)
  · intro m' e4 e5 e6 e7
    unfold loadLvar bin_to_uint32
    rw [e4, e5, e6, e7]

/-- Claim C6 witness: on `mC1` the IREP section declares size 31 and the
cursor indeed lands at `20 + 31 = 51`. -/
theorem c6_section_advance_witness :
    (51 : Nat) = 20 + bin_to_uint32 mC1 24
    ∧ loadLvar mC1 20 = 20 + bin_to_uint32 mC1 24 :=
  ⟨(c6_section_advance cfg0 mC1 1 20 0 none).1 0 51 (some irepC1) 3 [] rfl rfl,
   (c6_section_advance cfg0 mC1 1 20 0 none).2.1⟩

/-- Claim C8: a string pool entry with 16-bit declared length `L` advances
the cursor from just after the type tag by exactly `2 + L + 1` bytes
(length field, `L` data bytes, terminator byte), the object pointing at the
data; and tag 2 (`IREP_TT_SSTR`) decodes through the identical wire layout
to the identical result as tag 0 (`IREP_TT_STR`) — in this code the two
variants are not distinguished at all. -/
theorem c8_string_wire_layout (cfg : Cfg) (m : Mem) (p : Nat) :
    decodePoolEntry cfg m 0 p =
      (PoolObj.str (p + 2), p + 2 + bin_to_uint16 m p + 1, [])
    ∧ decodePoolEntry cfg m 2 p = decodePoolEntry cfg m 0 p := by
  constructor
  · simp [decodePoolEntry]
  · simp [decodePoolEntry]

/-- Claim C10: if the 4-byte tag at the current top-level cursor matches
none of `"IREP"`, `"LVAR"`, `"END\0"`, one pass of the section-dispatch
loop changes nothing (first conjunct), the loop exhausts any amount of fuel
(second conjunct: it never terminates), and with a valid header the whole
`mrbc_load_mrb` call never returns for any fuel (third conjunct). -/
theorem c10_unknown_section_spins (cfg : Cfg) (m : Mem) (jf : Nat) (vi : Option Irep)
    (a ptr : Nat) (h1 : memEq m ptr IREPTAG = false) (h2 : memEq m ptr LVARTAG = false)
    (h3 : memEq m ptr ENDTAG = false) :
    (∀ lf, loadLoop cfg m jf (lf + 1) ptr vi a = loadLoop cfg m jf lf ptr vi a)
    ∧ (∀ lf, loadLoop cfg m jf lf ptr vi a = none)
    ∧ (memEq m 0 RITE02 = true → memEq m 12 MATZ = true → memEq m 16 ZERO4 = true →
        ptr = 20 → ∀ lf, mrbcLoadMrb cfg m lf jf vi a = none) := by
  have step : ∀ lf, loadLoop cfg m jf (lf + 1) ptr vi a = loadLoop cfg m jf lf ptr vi a := by
    intro lf; simp [loadLoop, h1, h2, h3]
  have spin : ∀ lf, loadLoop cfg m jf lf ptr vi a = none := by
    intro lf
    induction lf with
    | zero => rfl
    | succ k ih => rw [step k]; exact ih
  refine ⟨step, spin, ?_⟩
  intro hh1 hh2 hh3 hp lf
  subst hp
  have hh2' : memEq m (0 + 12) MATZ = true := by simpa using hh2
  have hh3' : memEq m (0 + 16) ZERO4 = true := by simpa using hh3
  simp [mrbcLoadMrb, loadHeader, hh1, hh2', hh3', spin lf]

/-- Claim C10 witness: on `mC10` (valid header, tag `"XXXX"`) the loop
returns nothing at fuel 5 and the whole load returns nothing at fuel 7. -/
theorem c10_unknown_section_spins_witness :
    loadLoop cfg0 mC10 1 5 20 none 0 = none
    ∧ mrbcLoadMrb cfg0 mC10 7 1 none 0 = none :=
  ⟨(c10_unknown_section_spins cfg0 mC10 1 none 0 20 (by decide) (by decide) (by decide)).2.1 5,
   (c10_unknown_section_spins cfg0 mC10 1 none 0 20 (by decide) (by decide)
     (by decide)).2.2 (by decide) (by decide) (by decide) rfl 7⟩

mutual
/-- A decoded record is well-sized when its child array has exactly `rlen`
slots, none of them NULL, and every child is recursively well-sized. -/
def sizedOk : Irep → Bool
  | .mk _ _ rlen _ _ _ _ _ _ reps => (RepList.length reps == rlen) && sizedOkList reps

/-- Every slot of the child array holds a decoded, well-sized record. -/
def sizedOkList : RepList → Bool
  | .nil => true
  | .cons .fail _ => false
  | .cons (.ok c) t => sizedOk c && sizedOkList t
end

/-- `c` is the record decoded (with its entire subtree) from stream
position `pos`, leaving the cursor at `pos'`, for some fuel and some
allocation counter. -/
def DecAt (cfg : Cfg) (m : Mem) (pos : Nat) (c : Irep) (pos' : Nat) : Prop :=
  ∃ f a a' lg, loadSeq cfg m f 1 pos a =
    some (RepList.cons (RepEntry.ok c) RepList.nil, pos', a', lg)

/-- The slots of a child array, in order, are decoded records whose input
spans tile `[pos, pos')` contiguously: each child's whole subtree is
decoded from exactly where the previous sibling's subtree ended. -/
def Chain (cfg : Cfg) (m : Mem) : Nat → RepList → Nat → Prop
  | pos, .nil, pos' => pos' = pos
  | pos, .cons e t, pos' =>
    ∃ c mid, e = RepEntry.ok c ∧ DecAt cfg m pos c mid ∧ Chain cfg m mid t pos'

/-- Under an always-succeeding allocator, every allocation returns the
bumped counter with success. -/
theorem tryAlloc_perfect (cfg : Cfg) (hA : ∀ k, cfg.alloc k = true) (a : Nat) :
    tryAlloc cfg a = (true, a + 1) := by
  simp [tryAlloc, hA]

/-- Under an always-succeeding allocator the pool loop never returns the
NULL-signalling result. -/
theorem poolLoop_not_fail (cfg : Cfg) (hA : ∀ k, cfg.alloc k = true) (m : Mem) :
    ∀ n p a a2 lg, poolLoop cfg m n p a ≠ (none, a2, lg) := by
  intro n
  induction n with
  | zero => intro p a a2 lg h; simp [poolLoop] at h
  | succ k ih =>
    intro p a a2 lg h
    simp only [poolLoop, tryAlloc_perfect cfg hA, if_true] at h
    split at h
    · simp at h
    · next heq => exact ih _ _ _ _ heq

/-- Under an always-succeeding allocator `load_irep_1` never returns NULL. -/
theorem loadIrep1_not_fail (cfg : Cfg) (hA : ∀ k, cfg.alloc k = true) (m : Mem) :
    ∀ pos a a1 lg, loadIrep1 cfg m pos a ≠ (none, a1, lg) := by
  intro pos a a1 lg h
  simp only [loadIrep1, tryAlloc_perfect cfg hA] at h
  simp only [apply_ite Prod.fst, ite_self] at h
  simp only [reduceCtorEq, if_false, Bool.true_eq_false, if_neg] at h
  split at h
  · next heq => exact poolLoop_not_fail cfg hA m _ _ _ _ _ heq
  · simp at h

/-- Unfolding lemma for `sizedOk` after the child array is filled in. -/
theorem sizedOk_setReps (ir : Irep) (rs : RepList) :
    sizedOk (Irep.setReps ir rs) =
      ((RepList.length rs == Irep.rlen ir) && sizedOkList rs) := by
  cases ir with
  | mk a b c d e f g h i reps => simp [Irep.setReps, Irep.rlen, sizedOk]

/-- Under an always-succeeding allocator, every successful run of the tree
loader returns exactly the requested number of records, all fully decoded
and well-sized, tiling the input contiguously in order. -/
theorem seq_decoded (cfg : Cfg) (hA : ∀ k, cfg.alloc k = true) (m : Mem) :
    ∀ f n pos a cs pos' a' lg,
      loadSeq cfg m f n pos a = some (cs, pos', a', lg) →
      RepList.length cs = n ∧ sizedOkList cs = true ∧ Chain cfg m pos cs pos' := by
  intro f
  induction f with
  | zero =>
    intro n pos a cs pos' a' lg h
    cases n with
    | zero =>
      simp only [loadSeq, Option.some.injEq, Prod.mk.injEq] at h
      obtain ⟨rfl, rfl, -, -⟩ := h
      exact ⟨rfl, rfl, rfl⟩
    | succ k => simp [loadSeq] at h
  | succ f ih =>
    intro n pos a cs pos' a' lg h
    cases n with
    | zero =>
      simp only [loadSeq, Option.some.injEq, Prod.mk.injEq] at h
      obtain ⟨rfl, rfl, -, -⟩ := h
      exact ⟨rfl, rfl, rfl⟩
    | succ k =>
      rcases h1 : loadIrep1 cfg m pos a with ⟨o1, a1, lg1⟩
      cases o1 with
      | none => exact absurd h1 (loadIrep1_not_fail cfg hA m _ _ _ _)
      | some irp =>
        obtain ⟨ir, pos1⟩ := irp
        rw [loadSeq, h1] at h
        dsimp only at h
        rcases h2 : loadSeq cfg m f (Irep.rlen ir) pos1 a1 with - | ⟨kids, pos2, a2, lg2⟩ <;>
          rw [h2] at h <;> dsimp only at h
        · simp at h
        rcases h3 : loadSeq cfg m f k pos2 a2 with - | ⟨sibs, pos3, a3, lg3⟩ <;>
          rw [h3] at h <;> dsimp only at h
        · simp at h
        simp only [Option.some.injEq, Prod.mk.injEq] at h
        obtain ⟨rfl, rfl, -, -⟩ := h
        obtain ⟨lenK, sizedK, -⟩ := ih _ _ _ _ _ _ _ h2
        obtain ⟨lenS, sizedS, chainS⟩ := ih _ _ _ _ _ _ _ h3
        refine ⟨?_, ?_, ?_⟩
        · simp [RepList.length, lenS]
        · simp [sizedOkList, sizedOk_setReps, lenK, sizedK, sizedS]
        · refine ⟨Irep.setReps ir kids, pos2, rfl, ?_, chainS⟩
          refine ⟨f + 1, a, a2, lg1 ++ lg2 ++ [], ?_⟩
          rw [loadSeq, h1]
          dsimp only
          rw [h2]
          dsimp only
          rw [loadSeq]

/-- `vm->irep` is either still unset or holds a well-sized tree. -/
def viOk : Option Irep → Prop
  | none => True
  | some ir => sizedOk ir = true

/-- The IREP section parser preserves `viOk` under an always-succeeding
allocator: any tree it stores in `vm->irep` is well-sized. -/
theorem loadIrepSec_sized (cfg : Cfg) (hA : ∀ k, cfg.alloc k = true) (m : Mem)
    (jf pos a : Nat) (vi : Option Irep) (hvi : viOk vi) :
    ∀ rq a' lg, loadIrepSec cfg m jf pos a vi = some (rq, a', lg) → viOk rq.2.2 := by
  intro rq a' lg h
  unfold loadIrepSec at h
  split at h
  · simp only [Option.some.injEq, Prod.mk.injEq] at h
    obtain ⟨h1, -, -⟩ := h
    subst h1
    exact hvi
  · split at h
    · exact absurd h (by simp)
    · next cs x a1 lg0 heq =>
      split at h
      · next ir tl =>
        obtain ⟨-, sized, -⟩ := seq_decoded cfg hA m _ _ _ _ _ _ _ _ heq
        simp only [sizedOkList, Bool.and_eq_true] at sized
        simp only [Option.some.injEq, Prod.mk.injEq] at h
        obtain ⟨h1, -, -⟩ := h
        subst h1
        exact sized.1
      · simp only [Option.some.injEq, Prod.mk.injEq] at h
        obtain ⟨h1, -, -⟩ := h
        subst h1
        exact trivial

/-- The section loop preserves `viOk` under an always-succeeding
allocator. -/
theorem loadLoop_sized (cfg : Cfg) (hA : ∀ k, cfg.alloc k = true) (m : Mem) (jf : Nat) :
    ∀ lf ptr vi a, viOk vi → ∀ rq a' lg,
      loadLoop cfg m jf lf ptr vi a = some (rq, a', lg) → viOk rq.2.2 := by
  intro lf
  induction lf with
  | zero => intro ptr vi a hvi rq a' lg h; simp [loadLoop] at h
  | succ k ih =>
    intro ptr vi a hvi rq a' lg h
    rw [loadLoop] at h
    split at h
    · split at h
      · exact absurd h (by simp)
      · next ret ptr1 vi1 a1 lg1 heq =>
        have hvi1 : viOk vi1 := loadIrepSec_sized cfg hA m jf ptr a vi hvi _ _ _ heq
        split at h
        · split at h
          · exact absurd h (by simp)
          · next r a2 lg2 heq2 =>
            simp only [Option.some.injEq, Prod.mk.injEq] at h
            obtain ⟨rfl, -, -⟩ := h
            exact ih _ _ _ hvi1 _ _ _ heq2
        · simp only [Option.some.injEq, Prod.mk.injEq] at h
          obtain ⟨rfl, -, -⟩ := h
          exact hvi1
    · split at h
      · exact ih _ _ _ hvi _ _ _ h
      · split at h
        · simp only [Option.some.injEq, Prod.mk.injEq] at h
          obtain ⟨rfl, -, -⟩ := h
          exact hvi
        · exact ih _ _ _ hvi _ _ _ h

/-- Claim C3: under an always-succeeding allocator (the "successfully
loaded" case: no failure anywhere), the first conjunct shows every run of
the tree loader that decodes `n` records returns exactly `n` slots, all
holding fully-decoded, recursively well-sized records (each record's child
array has exactly its declared `rlen` entries at every depth), and the
slots chain contiguously in input order (`Chain`): each record's own fields
are read first and each child's entire subtree is decoded from exactly
where the previous one ended (depth-first pre-order).  The second conjunct
lifts this to `mrbc_load_mrb`: any tree a successful or failed load leaves
in `vm->irep` is well-sized. -/
theorem c3_children_exact_in_order (cfg : Cfg) (hA : ∀ k, cfg.alloc k = true) (m : Mem) :
    (∀ f n pos a cs pos' a' lg,
      loadSeq cfg m f n pos a = some (cs, pos', a', lg) →
      RepList.length cs = n ∧ sizedOkList cs = true ∧ Chain cfg m pos cs pos')
    ∧ (∀ lf jf a r q ir a' lg,
      mrbcLoadMrb cfg m lf jf none a = some ((r, q, some ir), a', lg) →
      sizedOk ir = true) := by
  refine ⟨seq_decoded cfg hA m, ?_⟩
  intro lf jf a r q ir a' lg h
  unfold mrbcLoadMrb at h
  split at h
  · simp at h
  · split at h
    · exact absurd h (by simp)
    · next rq a1 lg2 heq =>
      simp only [Option.some.injEq, Prod.mk.injEq] at h
      obtain ⟨rfl, -, -⟩ := h
      exact loadLoop_sized cfg hA m jf lf _ none a trivial _ _ _ heq

/-- The leaf record decoded at offset 50 of `mD`. -/
def leafD1 : Irep := Irep.mk 0 0 0 0 0 64 0 [] 66 RepList.nil

/-- The leaf record decoded at offset 68 of `mD`. -/
def leafD2 : Irep := Irep.mk 0 0 0 0 0 82 0 [] 84 RepList.nil

/-- The root record of `mD`: `rlen = 2` with both children decoded. -/
def rootD : Irep :=
  Irep.mk 0 0 2 0 0 46 0 [] 48
    (RepList.cons (RepEntry.ok leafD1) (RepList.cons (RepEntry.ok leafD2) RepList.nil))

/-- The one-record result list of the tree loader on `mD`. -/
def csD : RepList := RepList.cons (RepEntry.ok rootD) RepList.nil

/-- A container (scenario D of the spec) with a valid header and an IREP
section whose root record declares `rlen = 2`, followed by two minimal leaf
records and `"END\0"`. -/
def mDL : List Nat :=
  [82, 73, 84, 69, 48, 50, 0, 0, 0, 0, 0, 0, 77, 65, 84, 90, 48, 48, 48, 48,
   73, 82, 69, 80, 0, 0, 0, 66, 48, 51, 48, 48,
   0, 0, 0, 0, 0, 0, 0, 0, 0, 2, 0, 0, 0, 0, 0, 0, 0, 0,
   0, 0, 0, 0, 0, 0, 0, 0, 0, 0, 0, 0, 0, 0, 0, 0, 0, 0,
   0, 0, 0, 0, 0, 0, 0, 0, 0, 0, 0, 0, 0, 0, 0, 0, 0, 0,
   69, 78, 68, 0]

/-- The byte stream of `mDL`. -/
def mD : Mem := fun i => mDL.getD i 0

/-- Claim C3 witness: on `mD` the tree loader decodes one record ending at
86, and the theorem yields that it is a single well-sized record whose two
children chain in input order. -/
theorem c3_children_exact_in_order_witness :
    RepList.length csD = 1 ∧ sizedOkList csD = true ∧ Chain cfg0 mD 32 csD 86 :=
  (c3_children_exact_in_order cfg0 (fun _ => rfl) mD).1 3 1 32 0 csD 86 4 [] rfl

/-- A pool-loop result without its allocation counter. -/
def poolView (r : Option (List PoolObj × Nat) × Nat × List RSite) :
    Option (List PoolObj × Nat) × List RSite := (r.1, r.2.2)

/-- An own-record decode result without its allocation counter. -/
def irep1View (r : Option (Irep × Nat) × Nat × List RSite) :
    Option (Irep × Nat) × List RSite := (r.1, r.2.2)

/-- A tree-loader result without its allocation counter. -/
def seqView : Option (RepList × Nat × Nat × List RSite) →
    Option (RepList × Nat × List RSite)
  | none => none
  | some (cs, q, _, lg) => some (cs, q, lg)

/-- A load result without its allocation counter. -/
def loadView : Option ((Int × Nat × Option Irep) × Nat × List RSite) →
    Option ((Int × Nat × Option Irep) × List RSite)
  | none => none
  | some (r, _, lg) => some (r, lg)

/-- Under an always-succeeding allocator the pool loop's decoded objects,
cursor and diagnostics do not depend on the allocation counter. -/
theorem poolLoop_counter_irrel (cfg : Cfg) (hA : ∀ k, cfg.alloc k = true) (m : Mem) :
    ∀ n p a b, poolView (poolLoop cfg m n p a) = poolView (poolLoop cfg m n p b) := by
  intro n
  induction n with
  | zero => intro p a b; rfl
  | succ k ih =>
    intro p a b
    have h := ih (decodePoolEntry cfg m (m p) (p + 1)).2.1 (a + 1) (b + 1)
    rcases ha : poolLoop cfg m k (decodePoolEntry cfg m (m p) (p + 1)).2.1 (a + 1)
      with ⟨oa, a2, lga⟩
    rcases hb : poolLoop cfg m k (decodePoolEntry cfg m (m p) (p + 1)).2.1 (b + 1)
      with ⟨ob, b2, lgb⟩
    rw [ha, hb] at h
    simp only [poolView, Prod.mk.injEq] at h
    obtain ⟨rfl, rfl⟩ := h
    simp only [poolLoop, tryAlloc_perfect cfg hA, if_true]
    rw [ha, hb]
    rcases oa with - | ⟨z1, z2⟩ <;> rfl

/-- Alignment form of `poolLoop_counter_irrel`, for use at match splits. -/
theorem poolLoop_align (cfg : Cfg) (hA : ∀ k, cfg.alloc k = true) (m : Mem)
    {n p a b : Nat} {oa ob : Option (List PoolObj × Nat)} {a2 b2 : Nat}
    {lga lgb : List RSite}
    (ha : poolLoop cfg m n p a = (oa, a2, lga))
    (hb : poolLoop cfg m n p b = (ob, b2, lgb)) : oa = ob ∧ lga = lgb := by
  have h := poolLoop_counter_irrel cfg hA m n p a b
  rw [ha, hb] at h
  simpa [poolView, Prod.mk.injEq] using h

/-- Under an always-succeeding allocator `load_irep_1`'s decoded record,
cursor and diagnostics do not depend on the allocation counter. -/
theorem loadIrep1_counter_irrel (cfg : Cfg) (hA : ∀ k, cfg.alloc k = true) (m : Mem) :
    ∀ pos a b, irep1View (loadIrep1 cfg m pos a) = irep1View (loadIrep1 cfg m pos b) := by
  intro pos a b
  simp only [loadIrep1, tryAlloc_perfect cfg hA]
  simp only [apply_ite Prod.fst, ite_self]
  simp only [reduceCtorEq, if_false, Bool.true_eq_false, if_neg]
  split
  · next heqa =>
    split
    · next heqb =>
      obtain ⟨ho, hl⟩ := poolLoop_align cfg hA m heqa heqb
      cases ho
      cases hl
      rfl
    · next heqb =>
      obtain ⟨ho, -⟩ := poolLoop_align cfg hA m heqa heqb
      simp at ho
  · next pools p2 a3 lg heqa =>
    split
    · next heqb =>
      obtain ⟨ho, -⟩ := poolLoop_align cfg hA m heqa heqb
      simp at ho
    · next pools2 p22 b3 lg2 heqb =>
      obtain ⟨ho, hl⟩ := poolLoop_align cfg hA m heqa heqb
      simp only [Option.some.injEq, Prod.mk.injEq] at ho
      obtain ⟨rfl, rfl⟩ := ho
      cases hl
      rfl

/-- Under an always-succeeding allocator the tree loader's records, cursor
and diagnostics do not depend on the allocation counter. -/
theorem loadSeq_counter_irrel (cfg : Cfg) (hA : ∀ k, cfg.alloc k = true) (m : Mem) :
    ∀ f n pos a b, seqView (loadSeq cfg m f n pos a) = seqView (loadSeq cfg m f n pos b) := by
  intro f
  induction f with
  | zero =>
    intro n pos a b
    cases n with
    | zero => rfl
    | succ k => rfl
  | succ f ih =>
    intro n pos a b
    cases n with
    | zero => rfl
    | succ k =>
      rcases hia : loadIrep1 cfg m pos a with ⟨oa, a1, lga⟩
      rcases hib : loadIrep1 cfg m pos b with ⟨ob, b1, lgb⟩
      have hv := loadIrep1_counter_irrel cfg hA m pos a b
      rw [hia, hib] at hv
      simp only [irep1View, Prod.mk.injEq] at hv
      obtain ⟨rfl, rfl⟩ := hv
      cases oa with
      | none =>
        rw [loadSeq, loadSeq, hia, hib]
        dsimp only
        have hw := ih k pos a1 b1
        rcases hsa : loadSeq cfg m f k pos a1 with - | ⟨cs, pos2, a2, lg2⟩ <;>
          rcases hsb : loadSeq cfg m f k pos b1 with - | ⟨cs2, pos2a, b2, lg2a⟩ <;>
          rw [hsa, hsb] at hw
        · exact absurd hw (by simp [seqView])
        · exact absurd hw (by simp [seqView])
        · simp only [seqView, Option.some.injEq, Prod.mk.injEq] at hw
          obtain ⟨rfl, rfl, rfl⟩ := hw
          rfl
      | some irp =>
        obtain ⟨ir, pos1⟩ := irp
        rw [loadSeq, loadSeq, hia, hib]
        dsimp only
        have hw := ih (Irep.rlen ir) pos1 a1 b1
        rcases hsa : loadSeq cfg m f (Irep.rlen ir) pos1 a1 with - | ⟨kids, pos2, a2, lg2⟩ <;>
          rcases hsb : loadSeq cfg m f (Irep.rlen ir) pos1 b1 with - | ⟨kids2, pos2a, b2, lg2a⟩ <;>
          rw [hsa, hsb] at hw
        · exact absurd hw (by simp [seqView])
        · exact absurd hw (by simp [seqView])
        · simp only [seqView, Option.some.injEq, Prod.mk.injEq] at hw
          obtain ⟨rfl, rfl, rfl⟩ := hw
          dsimp only
          have hu := ih k pos2 a2 b2
          rcases hta : loadSeq cfg m f k pos2 a2 with - | ⟨sibs, pos3, a3, lg3⟩ <;>
            rcases htb : loadSeq cfg m f k pos2 b2 with - | ⟨sibs2, pos3a, b3, lg3a⟩ <;>
            rw [hta, htb] at hu
          · exact absurd hu (by simp [seqView])
          · exact absurd hu (by simp [seqView])
          · simp only [seqView, Option.some.injEq, Prod.mk.injEq] at hu
            obtain ⟨rfl, rfl, rfl⟩ := hu
            rfl

/-- Under an always-succeeding allocator the IREP section parser's result
and diagnostics do not depend on the allocation counter. -/
theorem loadIrepSec_counter_irrel (cfg : Cfg) (hA : ∀ k, cfg.alloc k = true) (m : Mem)
    (jf pos a b : Nat) (vi : Option Irep) :
    loadView (loadIrepSec cfg m jf pos a vi) = loadView (loadIrepSec cfg m jf pos b vi) := by
  by_cases hrev : memEq m (pos + 8) REV0300 = false
  · simp only [loadIrepSec, hrev]
    rfl
  · rw [Bool.not_eq_false] at hrev
    have hw := loadSeq_counter_irrel cfg hA m jf 1 (pos + 12) a b
    rcases hsa : loadSeq cfg m jf 1 (pos + 12) a with - | ⟨cs, q, a1, lg⟩ <;>
      rcases hsb : loadSeq cfg m jf 1 (pos + 12) b with - | ⟨cs2, q2, b1, lg2⟩ <;>
      rw [hsa, hsb] at hw
    · simp [loadIrepSec, hrev, hsa, hsb]
    · exact absurd hw (by simp [seqView])
    · exact absurd hw (by simp [seqView])
    · simp only [seqView, Option.some.injEq, Prod.mk.injEq] at hw
      obtain ⟨rfl, rfl, rfl⟩ := hw
      simp only [loadIrepSec, hrev, Bool.true_eq_false, if_false, hsa, hsb]
      rcases cs with - | ⟨e, t⟩
      · rfl
      · rcases e with - | ir <;> rfl

/-- Under an always-succeeding allocator the section loop's result and
diagnostics do not depend on the allocation counter. -/
theorem loadLoop_counter_irrel (cfg : Cfg) (hA : ∀ k, cfg.alloc k = true) (m : Mem)
    (jf : Nat) : ∀ lf ptr a b (vi : Option Irep),
    loadView (loadLoop cfg m jf lf ptr vi a) = loadView (loadLoop cfg m jf lf ptr vi b) := by
  intro lf
  induction lf with
  | zero => intro ptr a b vi; rfl
  | succ k ih =>
    intro ptr a b vi
    rw [loadLoop, loadLoop]
    by_cases h1 : memEq m ptr IREPTAG = true
    · rw [if_pos h1, if_pos h1]
      have hw := loadIrepSec_counter_irrel cfg hA m jf ptr a b vi
      rcases hsa : loadIrepSec cfg m jf ptr a vi with - | ⟨⟨ret, ptr1, vi1⟩, a1, lg1⟩ <;>
        rcases hsb : loadIrepSec cfg m jf ptr b vi with - | ⟨⟨ret2, ptr2, vi2⟩, b1, lg1a⟩ <;>
        rw [hsa, hsb] at hw
      · exact absurd hw (by simp [loadView])
      · exact absurd hw (by simp [loadView])
      · simp only [loadView, Option.some.injEq, Prod.mk.injEq] at hw
        obtain ⟨⟨rfl, rfl, rfl⟩, rfl⟩ := hw
        dsimp only
        by_cases hret : ret = 0
        · rw [if_pos hret, if_pos hret]
          have hu := ih ptr1 a1 b1 vi1
          rcases hla : loadLoop cfg m jf k ptr1 vi1 a1 with - | ⟨r, a2, lg2⟩ <;>
            rcases hlb : loadLoop cfg m jf k ptr1 vi1 b1 with - | ⟨r2, b2, lg2a⟩ <;>
            rw [hla, hlb] at hu
          · exact absurd hu (by simp [loadView])
          · exact absurd hu (by simp [loadView])
          · simp only [loadView, Option.some.injEq, Prod.mk.injEq] at hu
            obtain ⟨rfl, rfl⟩ := hu
            rfl
        · rw [if_neg hret, if_neg hret]
          rfl
    · rw [if_neg h1, if_neg h1]
      by_cases h2 : memEq m ptr LVARTAG = true
      · rw [if_pos h2, if_pos h2]
        exact ih (loadLvar m ptr) a b vi
      · rw [if_neg h2, if_neg h2]
        by_cases h3 : memEq m ptr ENDTAG = true
        · rw [if_pos h3, if_pos h3]
          rfl
        · rw [if_neg h3, if_neg h3]
          exact ih ptr a b vi

/-- Claim C9: the decode is a deterministic function of the input bytes.
Given identical allocation outcomes (modelled by an always-succeeding
allocator, so every allocation succeeds in both runs), two `mrbc_load_mrb`
calls on the same immutable buffer from a fresh `vm->irep`, whatever the
allocator's internal state (counter) at each call, return the same status,
the same final cursor, structurally identical (deep-equal) trees, and the
same diagnostics. -/
theorem c9_load_deterministic (cfg : Cfg) (hA : ∀ k, cfg.alloc k = true) (m : Mem)
    (lf jf a b : Nat) :
    loadView (mrbcLoadMrb cfg m lf jf none a) = loadView (mrbcLoadMrb cfg m lf jf none b) := by
  unfold mrbcLoadMrb
  rcases hh : loadHeader m 0 with ⟨oh, lgh⟩
  cases oh with
  | none => rfl
  | some ptr =>
    dsimp only
    have hu := loadLoop_counter_irrel cfg hA m jf lf ptr a b none
    rcases hla : loadLoop cfg m jf lf ptr none a with - | ⟨r, a2, lg2⟩ <;>
      rcases hlb : loadLoop cfg m jf lf ptr none b with - | ⟨r2, b2, lg2a⟩ <;>
      rw [hla, hlb] at hu
    · exact absurd hu (by simp [loadView])
    · exact absurd hu (by simp [loadView])
    · simp only [loadView, Option.some.injEq, Prod.mk.injEq] at hu
      obtain ⟨rfl, rfl⟩ := hu
      rfl

/-- Claim C9 witness: two loads of `mD` at different allocator counters (0
and 7) agree on status, cursor, tree and diagnostics. -/
theorem c9_load_deterministic_witness :
    loadView (mrbcLoadMrb cfg0 mD 2 3 none 0) = loadView (mrbcLoadMrb cfg0 mD 2 3 none 7) :=
  c9_load_deterministic cfg0 (fun _ => rfl) mD 2 3 0 7

end MrbcLoad
